import Mathlib

/-!
Verification of the hypercore core: the feed reconstruction algorithm
(`FeedBuilder::build` in `src/feed_builder.rs`) and the two random-access
storage backends (`RandomAccessDisk` and `RandomAccessSse` in
`crates/random-access-sse/src/lib.rs`).

The definitions below are a shallow embedding of the Rust source.  Byte
values are `Nat`, byte buffers are `List Nat`, `u64` quantities are `Nat`,
fallible operations return `Except`, and the storage / crypto / flat-tree
collaborators that live outside the shown source are modelled from the
specification as explicit parameters.
-/

/-- Decidable equality for `Except`, so concrete runs of the embedded
operations can be checked by `decide`. -/
instance exceptDecidableEq {ε α : Type} [DecidableEq ε] [DecidableEq α] :
    DecidableEq (Except ε α) := fun a b =>
  match a, b with
  | Except.error e1, Except.error e2 =>
    if h : e1 = e2 then isTrue (by rw [h]) else isFalse (by intro hc; cases hc; exact h rfl)
  | Except.error _, Except.ok _ => isFalse (by intro hc; cases hc)
  | Except.ok _, Except.error _ => isFalse (by intro hc; cases hc)
  | Except.ok a1, Except.ok a2 =>
    if h : a1 = a2 then isTrue (by rw [h]) else isFalse (by intro hc; cases hc; exact h rfl)

/-! ## Feed reconstruction: data model -/

/-- A persisted Merkle tree node record, as consumed by `FeedBuilder::build`:
only its flat-tree `index` and subtree byte `length` fields are used. -/
structure Node where
  index : Nat
  length : Nat
  deriving Repr, DecidableEq

/-- A storage operation performed by the builder, in the order attempted.
Mirrors the calls `write_public_key`, `write_secret_key`, `read_bitfield`
and `get_node` on `Storage<T>`. -/
inductive StorageOp where
  | writePublicKey
  | writeSecretKey
  | readBitfield
  | getNode (index : Nat)
  deriving Repr, DecidableEq

/-- Errors `FeedBuilder::build` can return: a propagated storage error, the
`SecretKey::from_bytes` validation failure, the
"Couldnt find idx of node" error, and the
"Roots contains undefined nodes" error. -/
inductive BuildError where
  | storageError (op : StorageOp)
  | invalidSecretKey
  | nodeIndexNotFound
  | rootsUndefined
  deriving Repr, DecidableEq

/-- Modelled from the spec: the collaborators of `FeedBuilder::build` that
live outside the shown source — the `Storage<T>` stream methods
(`write_public_key`, `write_secret_key`, `read_bitfield`, `get_node`), the
bitfield decoding (`Bitfield::from_slice` / `TreeIndex::blocks`, whose
`blocks()` value is the authoritative committed-block count), and the
signing-key validation/re-derivation (`SecretKey::from_bytes`). -/
structure BuildEnv where
  writePublicKeyOk : Bool
  writeSecretKeyOk : Bool
  readBitfieldResult : Except Unit (List Nat)
  getNodeResult : Nat → Except Unit Node
  blocksOf : List Nat → Nat
  skValidate : List Nat → Bool

/-- The resulting `Feed` aggregate (the fields consumed by the claims:
root set, total byte length, block count, bitfield, keys, peer list). -/
structure Feed where
  roots : List Node
  byteLength : Nat
  length : Nat
  bitfield : Option (List Nat)
  publicKey : List Nat
  secretKey : Option (List Nat)
  peers : List Nat
  deriving Repr, DecidableEq

/-- The builder state: `FeedBuilder { public_key, secret_key }`
(the storage handle is passed separately as a `BuildEnv`). -/
structure FeedBuilder where
  publicKey : List Nat
  secretKey : Option (List Nat)
  deriving Repr, DecidableEq

/-! ## Flat-tree full roots

Modelled from the spec: `flat_tree::full_roots` is an external collaborator
("the integer arithmetic that maps a block count to the canonical flat-tree
numbering, consumed as a pure function").  It emits the minimal set of
subtree-root indices covering blocks `[0, i/2)`, ascending. -/

/-- Worker for `maxPow2Le`: halves `n` until it reaches 1, doubling the
result; `fuel ≥ n` steps suffice since `n` at least halves each step. -/
def maxPow2LeGo (fuel : Nat) (n : Nat) : Nat :=
  match fuel with
  | 0 => 1
  | fuel + 1 => if n ≤ 1 then 1 else 2 * maxPow2LeGo fuel (n / 2)

/-- Largest power of two that is at most `n` (for `n ≥ 1`). -/
def maxPow2Le (n : Nat) : Nat :=
  maxPow2LeGo n n

/-- Modelled from the spec: worker for `fullRoots`.  Each step peels the
largest power-of-two block span off `tmp` and emits that subtree's root.
The span is at least 1, so `fuel := tmp` steps always suffice. -/
def fullRootsGo (fuel : Nat) (tmp : Nat) (offset : Nat) : List Nat :=
  match fuel, tmp with
  | 0, _ => []
  | _, 0 => []
  | fuel + 1, tmp + 1 =>
    let factor := maxPow2Le (tmp + 1)
    (offset + factor - 1) :: fullRootsGo fuel (tmp + 1 - factor) (offset + 2 * factor)

/-- Modelled from the spec: `flat_tree::full_roots i` for even `i`; the
builder always calls it at `i = blocks * 2`. -/
def fullRoots (i : Nat) : List Nat :=
  fullRootsGo (i / 2) (i / 2) 0

/-! ## Feed reconstruction: the algorithm of `FeedBuilder::build` -/

/-- Transcribes `roots.iter().position(|&x| x == target)`. -/
def position (target : Nat) : List Nat → Option Nat
  | [] => none
  | x :: rest => if x = target then some 0 else (position target rest).map (· + 1)

/-- Transcribes `result.into_iter().collect::<Option<Vec<_>>>()`. -/
def collectSome {α : Type} : List (Option α) → Option (List α)
  | [] => some []
  | none :: _ => none
  | some a :: rest => (collectSome rest).map (a :: ·)

/-- The fetch loop of `FeedBuilder::build`: for each expected root index,
`get_node` it, locate its `index` field among the expected roots with
`position`, and place it into that slot of the accumulator.  Returns the
outcome together with the trace of `get_node` calls performed. -/
def fetchRoots (env : BuildEnv) (roots : List Nat) :
    List Nat → List (Option Node) → Except BuildError (List (Option Node)) × List StorageOp
  | [], acc => (Except.ok acc, [])
  | r :: rest, acc =>
    match env.getNodeResult r with
    | Except.error _ => (Except.error (BuildError.storageError (StorageOp.getNode r)), [StorageOp.getNode r])
    | Except.ok node =>
      match position node.index roots with
      | none => (Except.error BuildError.nodeIndexNotFound, [StorageOp.getNode r])
      | some idx =>
        let res := fetchRoots env roots rest (acc.set idx (some node))
        (res.1, StorageOp.getNode r :: res.2)

/-- The committed-block count the builder derives: `blocks()` of the tree
index built from the loaded bitfield, or of a fresh empty bitfield when
`read_bitfield` returned any `Err`. -/
def buildBlocks (env : BuildEnv) : Nat :=
  match env.readBitfieldResult with
  | Except.ok bs => env.blocksOf bs
  | Except.error _ => 0

/-- The bitfield the builder keeps: the loaded bytes on `Ok`, a fresh empty
bitfield (`none`) on any `Err` of `read_bitfield`. -/
def buildBitfield (env : BuildEnv) : Option (List Nat) :=
  match env.readBitfieldResult with
  | Except.ok bs => some bs
  | Except.error _ => none

/-- The tail of `FeedBuilder::build` after the key handling: load the
bitfield (any failure yields a fresh empty one), compute the expected full
roots from `blocks * 2`, fetch and slot each root node, fail if any slot is
unfilled, sum the subtree lengths, and assemble the `Feed`. -/
def buildRest (b : FeedBuilder) (sk : Option (List Nat)) (env : BuildEnv)
    (tr : List StorageOp) : Except BuildError Feed × List StorageOp :=
  let roots := fullRoots (buildBlocks env * 2)
  let fetched := fetchRoots env roots roots (List.replicate roots.length none)
  let tr2 := (tr ++ [StorageOp.readBitfield]) ++ fetched.2
  match fetched.1 with
  | Except.error e => (Except.error e, tr2)
  | Except.ok result =>
    match collectSome result with
    | none => (Except.error BuildError.rootsUndefined, tr2)
    | some nodes =>
      (Except.ok
        { roots := nodes
          byteLength := nodes.foldl (fun acc n => acc + n.length) 0
          length := buildBlocks env
          bitfield := buildBitfield env
          publicKey := b.publicKey
          secretKey := sk
          peers := [] }, tr2)

/-- Transcribes `FeedBuilder::build`: write the public key; if a secret key is present,
validate/re-derive it from its raw bytes (`SecretKey::from_bytes`) and then
write it; then reconstruct bitfield, tree and root set.  Returns the
outcome together with the trace of storage operations attempted. -/
def FeedBuilder.build (b : FeedBuilder) (env : BuildEnv) :
    Except BuildError Feed × List StorageOp :=
  if env.writePublicKeyOk = false then
    (Except.error (BuildError.storageError StorageOp.writePublicKey), [StorageOp.writePublicKey])
  else
    match b.secretKey with
    | some sk =>
      if env.skValidate sk = false then
        (Except.error BuildError.invalidSecretKey, [StorageOp.writePublicKey])
      else if env.writeSecretKeyOk = false then
        (Except.error (BuildError.storageError StorageOp.writeSecretKey),
          [StorageOp.writePublicKey, StorageOp.writeSecretKey])
      else
        buildRest b (some sk) env [StorageOp.writePublicKey, StorageOp.writeSecretKey]
    | none => buildRest b none env [StorageOp.writePublicKey]

/-! ## Disk backend (`RandomAccessDisk`)

The file is a byte list (`contents`), possibly shorter than the tracked
`length` (a seek past end-of-file followed by a write of fewer bytes than
the gap leaves a sparse hole; holes and positions beyond the file read as
zero, exactly as a single `file.read` into a zeroed buffer behaves).
`u64` arithmetic is idealized as `Nat`.  The I/O layer (`seek`/`write_all`/
`set_len`/`sync_all`/`read`) may fail; each call takes explicit `Bool`
oracles saying whether those underlying operations succeed. -/

inductive DiskError where
  | outOfBounds
  | ioError
  | notImplemented
  deriving Repr, DecidableEq

structure RandomAccessDisk where
  contents : List Nat
  length : Nat
  autoSync : Bool
  deriving Repr, DecidableEq

/-- Transcribes `seek(offset)` then `write_all(data)`: bytes `[offset, offset+|data|)`
become `data`; a gap between the old end of file and `offset` reads as
zero; writing no bytes leaves the file untouched. -/
def writeBytes (c : List Nat) (o : Nat) (d : List Nat) : List Nat :=
  if d.isEmpty then c
  else
    (List.range (max c.length (o + d.length))).map (fun i =>
      if o ≤ i ∧ i < o + d.length then d.getD (i - o) 0 else c.getD i 0)

/-- Transcribes `seek(offset)` then one `read` into a zeroed buffer of `n` bytes:
positions beyond the physical end of file stay zero. -/
def readBytes (c : List Nat) (o : Nat) (n : Nat) : List Nat :=
  (List.range n).map (fun i => c.getD (o + i) 0)

/-- Transcribes `set_len(n)`: truncate or zero-extend the physical file to `n` bytes. -/
def resizeTo (c : List Nat) (n : Nat) : List Nat :=
  c.take n ++ List.replicate (n - c.length) 0

/-- Transcribes `RandomAccessDisk::write`: seek and write the bytes, sync if
`auto_sync`, and only then extend the tracked length to
`offset + data.len()` when that exceeds it. -/
def RandomAccessDisk.write (s : RandomAccessDisk) (offset : Nat) (data : List Nat)
    (writeOk syncOk : Bool) : Except DiskError Unit × RandomAccessDisk :=
  if writeOk = false then (Except.error DiskError.ioError, s)
  else
    let s1 := { s with contents := writeBytes s.contents offset data }
    if s.autoSync && !syncOk then (Except.error DiskError.ioError, s1)
    else
      let newLen := offset + data.length
      if newLen > s.length then (Except.ok (), { s1 with length := newLen })
      else (Except.ok (), s1)

/-- Transcribes `RandomAccessDisk::read`: fail when `offset + length` exceeds the
tracked length, otherwise read into a zeroed `length`-byte buffer.  The
source computes `offset + length` in `u64`, which wraps modulo `2 ^ 64` in
a release build (a debug build would abort instead of returning the bounds
error); the wrapped sum is what the bounds check compares. -/
def RandomAccessDisk.read (s : RandomAccessDisk) (offset n : Nat) (ioOk : Bool) :
    Except DiskError (List Nat) × RandomAccessDisk :=
  if (offset + n) % 2 ^ 64 > s.length then (Except.error DiskError.outOfBounds, s)
  else if ioOk = false then (Except.error DiskError.ioError, s)
  else (Except.ok (readBytes s.contents offset n), s)

/-- Transcribes `RandomAccessDisk::truncate`: the tracked length is set to `n` first;
then `set_len` and (under `auto_sync`) `sync_all` are attempted, whose
failures propagate without rolling the length back. -/
def RandomAccessDisk.truncate (s : RandomAccessDisk) (n : Nat)
    (setLenOk syncOk : Bool) : Except DiskError Unit × RandomAccessDisk :=
  let s1 := { s with length := n }
  if setLenOk = false then (Except.error DiskError.ioError, s1)
  else
    let s2 := { s1 with contents := resizeTo s.contents n }
    if s.autoSync && !syncOk then (Except.error DiskError.ioError, s2)
    else (Except.ok (), s2)

/-- Transcribes `RandomAccessDisk::len`: it returns `Ok(self.length)`. -/
def RandomAccessDisk.len (s : RandomAccessDisk) : Except DiskError Nat :=
  Except.ok s.length

/-- Transcribes `RandomAccessDisk::is_empty`. -/
def RandomAccessDisk.isEmpty (s : RandomAccessDisk) : Except DiskError Bool :=
  Except.ok (s.length == 0)

/-- Transcribes `RandomAccessDisk::del`: not implemented, fails loudly. -/
def RandomAccessDisk.del (_s : RandomAccessDisk) (_offset _n : Nat) :
    Except DiskError Unit :=
  Except.error DiskError.notImplemented

/-- Transcribes `RandomAccessDisk::sync_all`: a flush only happens (and can only fail)
when `auto_sync` is off. -/
def RandomAccessDisk.syncAll (s : RandomAccessDisk) (ioOk : Bool) :
    Except DiskError Unit :=
  if s.autoSync then Except.ok ()
  else if ioOk then Except.ok () else Except.error DiskError.ioError

/-- A freshly created file (`Builder::build` on a new path): zero length. -/
def diskEmpty : RandomAccessDisk :=
  { contents := [], length := 0, autoSync := true }

/-! A history of successful mutations, used to state the round-trip claim
"read returns the most recently written bytes". -/

inductive DiskOp where
  | writeOp (offset : Nat) (data : List Nat)
  | truncOp (n : Nat)
  deriving Repr, DecidableEq

/-- Apply one successful mutation (all I/O oracles true). -/
def applyOp (s : RandomAccessDisk) : DiskOp → RandomAccessDisk
  | DiskOp.writeOp o d => (s.write o d true true).2
  | DiskOp.truncOp n => (s.truncate n true true).2

/-- Run a chronological list of mutations. -/
def runOps (s : RandomAccessDisk) (ops : List DiskOp) : RandomAccessDisk :=
  ops.foldl applyOp s

/-- The byte most recently written at absolute position `i` by the write
operations of a chronological history (later operations win), `none` when
no write ever covered position `i`. -/
def lastWritten : List DiskOp → Nat → Option Nat
  | [], _ => none
  | op :: rest, i =>
    match lastWritten rest i with
    | some b => some b
    | none =>
      match op with
      | DiskOp.writeOp o d =>
        if o ≤ i ∧ i < o + d.length then some (d.getD (i - o) 0) else none
      | DiskOp.truncOp _ => none

/-! ## Secure backend (`RandomAccessSse`)

Everything below transcribes the `RandomAccessSse` implementation exactly:
`write`/`truncate`/`sync_all` return `Ok` without touching anything, `read`
returns `Ok(Vec::default())` (the empty buffer) for every request, and
`len`/`is_empty` (`todo!()`) as well as `del`/`read_to_writer` abort; the
aborts are modelled as a `notImplemented` error value. -/

inductive SseOpError where
  | notImplemented
  deriving Repr, DecidableEq

structure RandomAccessSse where
  object : Option Nat
  deriving Repr, DecidableEq

def RandomAccessSse.write (_s : RandomAccessSse) (_offset : Nat) (_data : List Nat) :
    Except SseOpError Unit :=
  Except.ok ()

def RandomAccessSse.read (_s : RandomAccessSse) (_offset _n : Nat) :
    Except SseOpError (List Nat) :=
  Except.ok []

def RandomAccessSse.del (_s : RandomAccessSse) (_offset _n : Nat) :
    Except SseOpError Unit :=
  Except.error SseOpError.notImplemented

def RandomAccessSse.truncate (_s : RandomAccessSse) (_n : Nat) :
    Except SseOpError Unit :=
  Except.ok ()

def RandomAccessSse.len (_s : RandomAccessSse) : Except SseOpError Nat :=
  Except.error SseOpError.notImplemented

def RandomAccessSse.isEmpty (_s : RandomAccessSse) : Except SseOpError Bool :=
  Except.error SseOpError.notImplemented

def RandomAccessSse.syncAll (_s : RandomAccessSse) : Except SseOpError Unit :=
  Except.ok ()

/-! ## Secure backend construction (`SseBuilder`) -/

/-- Errors the secure storage engine's `create_object` can produce. -/
inductive SseCreateError where
  | accessConflict
  | otherError
  deriving Repr, DecidableEq

/-- The `SseBuilder` configuration (`storage`/`session`/`obj_id`/
`obj_type`/`storage_id`/`flags`; identifiers idealized as `Nat`). -/
structure SseBuilder where
  session : Nat
  objId : Nat
  objType : Nat
  storageId : Nat
  flags : Nat
  deriving Repr, DecidableEq

/-- Transcribes `SseBuilder::build`: calls the engine's `create_object` under the
storage lock and propagates every failure with `?`; on success it wraps the
object.  (`createObject` stands for the external secure storage engine.) -/
def SseBuilder.build (b : SseBuilder)
    (createObject : SseBuilder → Except SseCreateError Nat) :
    Except SseCreateError RandomAccessSse :=
  match createObject b with
  | Except.error e => Except.error e
  | Except.ok obj => Except.ok { object := some obj }

/-! ## Concrete environments and feeds used by the claim checks -/

/-- The environment used to exercise C2 concretely: storage accepts
writes, and key validation is the byte-length re-derivation check. -/
def c2Env : BuildEnv :=
  { writePublicKeyOk := true
    writeSecretKeyOk := true
    readBitfieldResult := Except.ok []
    getNodeResult := fun _ => Except.error ()
    blocksOf := fun _ => 0
    skValidate := fun bs => bs.length == 32 }

/-- The environment for the C3 witness: one committed block, its single
expected root (flat index 0) present with matching index. -/
def c3WitEnv : BuildEnv :=
  { writePublicKeyOk := true
    writeSecretKeyOk := true
    readBitfieldResult := Except.ok []
    getNodeResult := fun i =>
      if i = 0 then Except.ok { index := 0, length := 7 } else Except.error ()
    blocksOf := fun _ => 1
    skValidate := fun _ => true }

/-- The feed the C3 witness reconstruction produces. -/
def c3WitFeed : Feed :=
  { roots := [{ index := 0, length := 7 }]
    byteLength := 7
    length := 1
    bitfield := some []
    publicKey := [0]
    secretKey := none
    peers := [] }

/-- The environment for the C3 counterexample: two expected roots `[1, 4]`
(three committed blocks), and storage returns, for each expected slot, a
node carrying the *other* slot's flat index. -/
def c3CexEnv : BuildEnv :=
  { writePublicKeyOk := true
    writeSecretKeyOk := true
    readBitfieldResult := Except.ok []
    getNodeResult := fun i =>
      if i = 1 then Except.ok { index := 4, length := 20 }
      else if i = 4 then Except.ok { index := 1, length := 10 }
      else Except.error ()
    blocksOf := fun _ => 3
    skValidate := fun _ => true }

/-- The environment for C4: reading the bitfield fails with a storage
error; everything else is healthy. -/
def c4Env : BuildEnv :=
  { writePublicKeyOk := true
    writeSecretKeyOk := true
    readBitfieldResult := Except.error ()
    getNodeResult := fun _ => Except.error ()
    blocksOf := fun _ => 99
    skValidate := fun _ => true }

/-- The environment for the C6 witness: seven committed blocks, so three
expected roots (flat indices 3, 9, 12) with subtree lengths 10, 20, 5. -/
def c6Env : BuildEnv :=
  { writePublicKeyOk := true
    writeSecretKeyOk := true
    readBitfieldResult := Except.ok [1]
    getNodeResult := fun i =>
      if i = 3 then Except.ok { index := 3, length := 10 }
      else if i = 9 then Except.ok { index := 9, length := 20 }
      else if i = 12 then Except.ok { index := 12, length := 5 }
      else Except.error ()
    blocksOf := fun _ => 7
    skValidate := fun _ => true }

/-- The feed the C6 witness reconstruction produces: roots with subtree
lengths `[10, 20, 5]` yield `byte_length = 35`, the spec's own example. -/
def c6Feed : Feed :=
  { roots := [{ index := 3, length := 10 }, { index := 9, length := 20 },
      { index := 12, length := 5 }]
    byteLength := 35
    length := 7
    bitfield := some [1]
    publicKey := [7]
    secretKey := none
    peers := [] }

/-! ## Claims about the secure backend -/

/-- C1: when the secure engine's `create_object` fails with an access
conflict (the object already exists under another session),
`SseBuilder::build` does NOT fall back to opening the existing object: it
propagates the error with `?`.  The open fallback the spec describes is
only a `TODO` comment in the source. -/
theorem sse_build_propagates_access_conflict :
    SseBuilder.build { session := 0, objId := 1, objType := 0, storageId := 0, flags := 0 }
        (fun _ => Except.error SseCreateError.accessConflict) =
      Except.error SseCreateError.accessConflict := rfl

/-- C5: the secure backend does not satisfy the disk backend's contract:
`write` reports success without storing anything, `read` returns the empty
byte vector for every request (here a 1-byte in-bounds-by-claim read
returns 0 bytes as success), `truncate` is a no-op success, and `len`
aborts (`todo!`) instead of reporting a length. -/
theorem sse_ops_are_stubs :
    RandomAccessSse.write { object := some 0 } 0 [9] = Except.ok () ∧
    RandomAccessSse.read { object := some 0 } 0 1 = Except.ok [] ∧
    RandomAccessSse.truncate { object := some 0 } 5 = Except.ok () ∧
    RandomAccessSse.len { object := some 0 } = Except.error SseOpError.notImplemented := by
  exact ⟨rfl, rfl, rfl, rfl⟩

/-! ## Claims about the disk backend -/

/-- C8 (amended): an out-of-bounds read whose `u64` sum `offset + length`
does not wrap (stays below `2 ^ 64`) fails with the bounds error and
leaves the backend state untouched, before any file I/O. -/
theorem disk_read_out_of_bounds_fails_unchanged (s : RandomAccessDisk)
    (offset n : Nat) (ioOk : Bool) (h : offset + n > s.length)
    (hw : offset + n < 2 ^ 64) :
    s.read offset n ioOk = (Except.error DiskError.outOfBounds, s) := by
  unfold RandomAccessDisk.read
  rw [Nat.mod_eq_of_lt hw, if_pos h]

/-- Witness for `disk_read_out_of_bounds_fails_unchanged` at a concrete
state and range. -/
theorem disk_read_out_of_bounds_fails_unchanged_witness :
    0 + 1 > diskEmpty.length ∧ 0 + 1 < 2 ^ 64 ∧
      diskEmpty.read 0 1 true = (Except.error DiskError.outOfBounds, diskEmpty) :=
  ⟨by decide, by decide,
    disk_read_out_of_bounds_fails_unchanged diskEmpty 0 1 true (by decide) (by decide)⟩

/-- C8 counterexample to the claim as stated: with a length-1 file, the
out-of-range request `offset = 2 ^ 64 - 1, length = 2` has
`offset + length > current length`, yet the source's wrapping `u64` sum is
`1 ≤ 1`, so the bounds check passes and `read` returns two zero-fill bytes
as success instead of the bounds error. -/
theorem disk_read_u64_wrap_cex :
    2 ^ 64 - 1 + 2 >
      ({ contents := [9], length := 1, autoSync := true } : RandomAccessDisk).length ∧
    ({ contents := [9], length := 1, autoSync := true } : RandomAccessDisk).read
        (2 ^ 64 - 1) 2 true =
      (Except.ok [0, 0], { contents := [9], length := 1, autoSync := true }) := by
  constructor
  · decide
  · decide

/-- C9: a successful disk write followed by `len` reports
`max (previous length) (offset + data.len())`. -/
theorem disk_write_len_is_max (s : RandomAccessDisk) (offset : Nat) (data : List Nat)
    (writeOk syncOk : Bool) (h : (s.write offset data writeOk syncOk).1 = Except.ok ()) :
    ((s.write offset data writeOk syncOk).2).len =
      Except.ok (max s.length (offset + data.length)) := by
  cases hw : writeOk with
  | false => simp [RandomAccessDisk.write, hw] at h
  | true =>
    cases hs : s.autoSync && !syncOk with
    | true => simp [RandomAccessDisk.write, hw, hs] at h
    | false =>
      by_cases hlen : offset + data.length > s.length
      · simp [RandomAccessDisk.write, RandomAccessDisk.len, hw, hs, hlen]
        omega
      · simp [RandomAccessDisk.write, RandomAccessDisk.len, hw, hs, hlen]
        omega

/-- Witness for `disk_write_len_is_max`: write `[5]` at offset 1 into an
empty file; `len` then reports `max 0 2 = 2`. -/
theorem disk_write_len_is_max_witness :
    (diskEmpty.write 1 [5] true true).1 = Except.ok () ∧
      ((diskEmpty.write 1 [5] true true).2).len =
        Except.ok (max diskEmpty.length (1 + [5].length)) :=
  ⟨by decide, disk_write_len_is_max diskEmpty 1 [5] true true (by decide)⟩

/-- C10: after any `truncate(n)` call — including those whose `set_len` or
`sync_all` fails and which therefore return an error — `len` reports
exactly `n`, because the in-memory length is updated first and never
rolled back. -/
theorem disk_truncate_len_reports_n (s : RandomAccessDisk) (n : Nat)
    (setLenOk syncOk : Bool) :
    ((s.truncate n setLenOk syncOk).2).len = Except.ok n := by
  cases h1 : setLenOk <;> cases h2 : s.autoSync && !syncOk <;>
    simp [RandomAccessDisk.truncate, RandomAccessDisk.len, h1, h2]

/-- A byte written inside the span of a `writeBytes` is read back from the
resulting file contents. -/
theorem writeBytes_getD_in (c : List Nat) (o : Nat) (d : List Nat) (i : Nat)
    (hi : i < d.length) :
    (writeBytes c o d).getD (o + i) 0 = d.getD i 0 := by
  have hd : d ≠ [] := by intro h; subst h; simp at hi
  have hb : d.isEmpty = false := by simp [hd]
  have hM : o + i < max c.length (o + d.length) := by omega
  simp only [writeBytes, hb, Bool.false_eq_true, if_false]
  rw [List.getD_eq_getElem?_getD, List.getElem?_map, List.getElem?_range hM]
  simp only [Option.map_some', Option.getD_some]
  rw [if_pos ⟨Nat.le_add_right o i, by omega⟩, Nat.add_sub_cancel_left]

/-- Reading back exactly the span of a just-performed `writeBytes` returns
the written data. -/
theorem readBytes_writeBytes (c : List Nat) (o : Nat) (d : List Nat) :
    readBytes (writeBytes c o d) o d.length = d := by
  apply List.ext_getElem
  · simp [readBytes]
  · intro i h1 h2
    simp only [readBytes, List.getElem_map, List.getElem_range]
    rw [writeBytes_getD_in c o d i h2, List.getD_eq_getElem?_getD,
      List.getElem?_eq_getElem h2, Option.getD_some]

/-- C7 (amended core): the write/read round-trip law for the disk backend.
A successful `write(offset, data)` immediately followed by
`read(offset, data.len())` succeeds and returns exactly `data`. -/
theorem disk_write_read_roundtrip (s : RandomAccessDisk) (offset : Nat) (data : List Nat) :
    (s.write offset data true true).1 = Except.ok () ∧
    (((s.write offset data true true).2).read offset data.length true).1 =
      Except.ok data := by
  constructor
  · simp only [RandomAccessDisk.write]
    rw [if_neg (by simp)]
    rw [if_neg (by simp)]
    split <;> rfl
  · simp only [RandomAccessDisk.write]
    rw [if_neg (by simp)]
    rw [if_neg (by simp)]
    split
    next hgt =>
      simp only [RandomAccessDisk.read]
      rw [if_neg (by have hm := Nat.mod_le (offset + data.length) (2 ^ 64); omega)]
      rw [if_neg (by simp)]
      rw [readBytes_writeBytes]
    next hgt =>
      simp only [RandomAccessDisk.read]
      rw [if_neg (by have hm := Nat.mod_le (offset + data.length) (2 ^ 64); simp; omega)]
      rw [if_neg (by simp)]
      rw [readBytes_writeBytes]

/-- C7 counterexample to the claim as stated: after the single mutation
`write(1, [5])` the tracked length is 2 and the in-bounds `read(0, 2)`
succeeds returning `[0, 5]`, yet no write ever covered position 0 — the
first returned byte is zero fill for a sparse gap, not a "most recently
written" byte. -/
theorem disk_read_zero_fill_cex :
    (runOps diskEmpty [DiskOp.writeOp 1 [5]]).length = 2 ∧
    ((runOps diskEmpty [DiskOp.writeOp 1 [5]]).read 0 2 true).1 = Except.ok [0, 5] ∧
    lastWritten [DiskOp.writeOp 1 [5]] 0 = none := by
  refine ⟨rfl, ?_, rfl⟩
  decide

/-! ## Claims about feed reconstruction -/

/-- Soundness of `position`: when the scan finds `t` at index `i`, the list
really holds `t` there. -/
theorem position_sound {t : Nat} :
    ∀ (l : List Nat) (i : Nat), position t l = some i → l[i]? = some t := by
  intro l
  induction l with
  | nil => intro i h; simp [position] at h
  | cons x rest ih =>
    intro i h
    rw [position] at h
    by_cases hx : x = t
    · rw [if_pos hx] at h
      cases h
      simp [hx]
    · rw [if_neg hx] at h
      rcases Option.map_eq_some'.mp h with ⟨j, hj, hji⟩
      subst hji
      simpa using ih j hj

/-- The fetch loop preserves the slot invariant: every filled slot holds a
node whose flat index is exactly that slot's expected root index. -/
theorem fetchRoots_sound (env : BuildEnv) (roots : List Nat) :
    ∀ (toFetch : List Nat) (acc res : List (Option Node)),
      (fetchRoots env roots toFetch acc).1 = Except.ok res →
      (∀ (i : Nat) (x : Node), acc[i]? = some (some x) → roots[i]? = some x.index) →
      res.length = acc.length ∧
        ∀ (i : Nat) (x : Node), res[i]? = some (some x) → roots[i]? = some x.index := by
  intro toFetch
  induction toFetch with
  | nil =>
    intro acc res h hinv
    simp only [fetchRoots] at h
    cases h
    exact ⟨rfl, hinv⟩
  | cons r rest ih =>
    intro acc res h hinv
    simp only [fetchRoots] at h
    split at h
    · simp at h
    next node heq =>
      split at h
      · simp at h
      next idx hp =>
        have hstep := ih (acc.set idx (some node)) res h ?_
        · exact ⟨by simpa using hstep.1, hstep.2⟩
        · intro i x hx
          by_cases hi : i = idx
          · subst hi
            have hlt : i < acc.length := by
              obtain ⟨hb, _⟩ := List.getElem?_eq_some_iff.mp hx
              simpa using hb
            rw [List.getElem?_set_self hlt] at hx
            cases hx
            exact position_sound roots i hp
          · rw [List.getElem?_set_ne (fun he => hi he.symm)] at hx
            exact hinv i x hx

/-- Soundness of `collectSome`: a collected list has the same length as the
option list and every element came from the corresponding `some` slot. -/
theorem collectSome_sound {α : Type} :
    ∀ (l : List (Option α)) (xs : List α), collectSome l = some xs →
      xs.length = l.length ∧
        ∀ (i : Nat) (x : α), xs[i]? = some x → l[i]? = some (some x) := by
  intro l
  induction l with
  | nil =>
    intro xs h
    simp only [collectSome] at h
    cases h
    exact ⟨rfl, by intro i x hx; simp at hx⟩
  | cons o rest ih =>
    intro xs h
    cases o with
    | none => simp [collectSome] at h
    | some a =>
      simp only [collectSome] at h
      rcases Option.map_eq_some'.mp h with ⟨ys, hys, hxs⟩
      subst hxs
      obtain ⟨hlen, hmem⟩ := ih ys hys
      refine ⟨by simp [hlen], ?_⟩
      intro i x hx
      cases i with
      | zero =>
        simp only [List.getElem?_cons_zero] at hx ⊢
        cases hx
        rfl
      | succ j =>
        simp only [List.getElem?_cons_succ] at hx ⊢
        exact hmem j x hx

/-- Destructuring a successful `buildRest`: the fetched result collected
into the root set, and all `Feed` fields as assembled by the source. -/
theorem buildRest_ok (b : FeedBuilder) (sk : Option (List Nat)) (env : BuildEnv)
    (tr : List StorageOp) (f : Feed)
    (h : (buildRest b sk env tr).1 = Except.ok f) :
    ∃ result,
      (fetchRoots env (fullRoots (buildBlocks env * 2)) (fullRoots (buildBlocks env * 2))
          (List.replicate (fullRoots (buildBlocks env * 2)).length none)).1 =
        Except.ok result ∧
      collectSome result = some f.roots ∧
      f.byteLength = f.roots.foldl (fun acc n => acc + n.length) 0 ∧
      f.length = buildBlocks env ∧
      f.bitfield = buildBitfield env ∧
      f.secretKey = sk ∧ f.publicKey = b.publicKey := by
  simp only [buildRest] at h
  split at h
  · simp at h
  next result heq =>
    split at h
    · simp at h
    next nodes heq2 =>
      simp only [] at h
      cases h
      exact ⟨result, heq, heq2, rfl, rfl, rfl, rfl, rfl⟩

/-- Destructuring a successful `FeedBuilder.build`: it went through
`buildRest`. -/
theorem build_ok (b : FeedBuilder) (env : BuildEnv) (f : Feed)
    (h : (FeedBuilder.build b env).1 = Except.ok f) :
    ∃ sk tr, (buildRest b sk env tr).1 = Except.ok f := by
  simp only [FeedBuilder.build] at h
  split at h
  · simp at h
  · split at h
    next sk heq =>
      split at h
      · simp at h
      · split at h
        · simp at h
        · exact ⟨some sk, _, h⟩
    next heq => exact ⟨none, _, h⟩

/-- Folding `acc + node.length` over a list starting at `a` adds the sum of
the lengths. -/
theorem foldl_add_length (l : List Node) :
    ∀ a : Nat, l.foldl (fun acc n => acc + n.length) a = a + (l.map Node.length).sum := by
  induction l with
  | nil => intro a; simp
  | cons n rest ih =>
    intro a
    simp only [List.foldl_cons, List.map_cons, List.sum_cons, ih]
    omega

/-- C2 (amended): when the supplied signing-key bytes fail
validation/re-derivation, `build` aborts with the validation error after
exactly one storage mutation — the public-key write, which the source
performs before validating the secret key; the secret key is not persisted
and neither the bitfield nor any tree node has been touched. -/
theorem feed_build_invalid_key_aborts_after_public_key (b : FeedBuilder)
    (env : BuildEnv) (sk : List Nat) (h1 : b.secretKey = some sk)
    (h2 : env.skValidate sk = false) (h3 : env.writePublicKeyOk = true) :
    FeedBuilder.build b env =
      (Except.error BuildError.invalidSecretKey, [StorageOp.writePublicKey]) := by
  simp [FeedBuilder.build, h1, h2, h3]

/-- Witness for `feed_build_invalid_key_aborts_after_public_key`: a 1-byte
secret key fails the 32-byte re-derivation. -/
theorem feed_build_invalid_key_aborts_after_public_key_witness :
    FeedBuilder.build { publicKey := [1], secretKey := some [2] } c2Env =
      (Except.error BuildError.invalidSecretKey, [StorageOp.writePublicKey]) :=
  feed_build_invalid_key_aborts_after_public_key
    { publicKey := [1], secretKey := some [2] } c2Env [2] rfl rfl rfl

/-- C2 counterexample to the claim as stated: with invalid signing-key
bytes, `build` does fail — but the trace of storage operations at that
point is not empty: the public key (key material) has already been written
to storage when the failure is reported. -/
theorem feed_build_invalid_key_writes_public_key_cex :
    (FeedBuilder.build { publicKey := [1], secretKey := some [2] } c2Env).1 =
      Except.error BuildError.invalidSecretKey ∧
    (FeedBuilder.build { publicKey := [1], secretKey := some [2] } c2Env).2 ≠ [] ∧
    StorageOp.writePublicKey ∈
      (FeedBuilder.build { publicKey := [1], secretKey := some [2] } c2Env).2 := by
  decide

/-- C3 (amended): a successful reconstruction never treats a root as
absent or misplaced — every slot of the resulting root set holds a node
whose flat index is exactly the expected full-root index for that slot. -/
theorem feed_build_ok_roots_match_expected (b : FeedBuilder) (env : BuildEnv)
    (f : Feed) (h : (FeedBuilder.build b env).1 = Except.ok f) :
    f.roots.map Node.index = fullRoots (f.length * 2) := by
  obtain ⟨sk, tr, h2⟩ := build_ok b env f h
  obtain ⟨result, hfetch, hcollect, _, hlen, _⟩ := buildRest_ok b sk env tr f h2
  have hinit : ∀ (i : Nat) (x : Node),
      (List.replicate (fullRoots (buildBlocks env * 2)).length
        (none : Option Node))[i]? = some (some x) →
      (fullRoots (buildBlocks env * 2))[i]? = some x.index := by
    intro i x hx
    rw [List.getElem?_replicate] at hx
    by_cases hi : i < (fullRoots (buildBlocks env * 2)).length
    · rw [if_pos hi] at hx; simp at hx
    · rw [if_neg hi] at hx; simp at hx
  obtain ⟨hlen2, hres⟩ :=
    fetchRoots_sound env (fullRoots (buildBlocks env * 2))
      (fullRoots (buildBlocks env * 2)) _ result hfetch hinit
  obtain ⟨hlen3, hmem⟩ := collectSome_sound result f.roots hcollect
  have hlenr : f.roots.length = (fullRoots (buildBlocks env * 2)).length := by
    rw [hlen3, hlen2, List.length_replicate]
  rw [hlen]
  apply List.ext_getElem?
  intro i
  rw [List.getElem?_map]
  by_cases hi : i < f.roots.length
  · rw [List.getElem?_eq_getElem hi]
    exact (hres i _ (hmem i _ (List.getElem?_eq_getElem hi))).symm
  · rw [List.getElem?_eq_none (by omega), List.getElem?_eq_none (by omega)]
    rfl

/-- Witness for `feed_build_ok_roots_match_expected` on a concrete
successful reconstruction. -/
theorem feed_build_ok_roots_match_expected_witness :
    (FeedBuilder.build { publicKey := [0], secretKey := none } c3WitEnv).1 =
      Except.ok c3WitFeed ∧
    c3WitFeed.roots.map Node.index = fullRoots (c3WitFeed.length * 2) :=
  ⟨by decide,
    feed_build_ok_roots_match_expected
      { publicKey := [0], secretKey := none } c3WitEnv c3WitFeed (by decide)⟩

/-- C3 counterexample to the claim as stated: the node fetched for slot 0
(expected flat index 1) has flat index 4 ≠ 1, yet `build` does not fail:
the position-based lookup routes each node to the slot matching its index
field and reconstruction succeeds. -/
theorem feed_build_accepts_swapped_root_indices_cex :
    fullRoots (3 * 2) = [1, 4] ∧
    c3CexEnv.getNodeResult 1 = Except.ok { index := 4, length := 20 } ∧
    (FeedBuilder.build { publicKey := [0], secretKey := none } c3CexEnv).1 =
      Except.ok
        { roots := [{ index := 1, length := 10 }, { index := 4, length := 20 }]
          byteLength := 30
          length := 3
          bitfield := some []
          publicKey := [0]
          secretKey := none
          peers := [] } := by
  decide

/-- C4 (amended): when `read_bitfield` fails — for any reason, a storage
error included — `build` does not propagate the failure: it proceeds with
a fresh empty bitfield, zero committed blocks, an empty root set, and
succeeds. -/
theorem feed_build_bitfield_error_yields_empty (b : FeedBuilder) (env : BuildEnv)
    (h1 : env.writePublicKeyOk = true) (h2 : b.secretKey = none)
    (h3 : env.readBitfieldResult = Except.error ()) :
    (FeedBuilder.build b env).1 =
      Except.ok
        { roots := [], byteLength := 0, length := 0, bitfield := none
          publicKey := b.publicKey, secretKey := none, peers := [] } := by
  have hb : buildBlocks env = 0 := by simp [buildBlocks, h3]
  have hbf : buildBitfield env = none := by simp [buildBitfield, h3]
  simp [FeedBuilder.build, h1, h2, buildRest, hb, hbf, fullRoots, fullRootsGo,
    fetchRoots, collectSome]

/-- C4 counterexample to the claim as stated: `read_bitfield` fails, yet
`build` succeeds with a substituted fresh empty bitfield instead of
propagating the error. -/
theorem feed_build_swallows_bitfield_error_cex :
    c4Env.readBitfieldResult = Except.error () ∧
    (FeedBuilder.build { publicKey := [3], secretKey := none } c4Env).1 =
      Except.ok
        { roots := [], byteLength := 0, length := 0, bitfield := none
          publicKey := [3], secretKey := none, peers := [] } := by
  decide

/-- Witness for `feed_build_bitfield_error_yields_empty` at the concrete
failing environment. -/
theorem feed_build_bitfield_error_yields_empty_witness :
    (FeedBuilder.build { publicKey := [3], secretKey := none } c4Env).1 =
      Except.ok
        { roots := [], byteLength := 0, length := 0, bitfield := none
          publicKey := [3], secretKey := none, peers := [] } :=
  feed_build_bitfield_error_yields_empty
    { publicKey := [3], secretKey := none } c4Env rfl rfl rfl

/-- C6: every successful reconstruction's total `byte_length` is the sum
of the subtree byte lengths of the nodes in its full-root set. -/
theorem feed_build_byte_length_is_root_sum (b : FeedBuilder) (env : BuildEnv)
    (f : Feed) (h : (FeedBuilder.build b env).1 = Except.ok f) :
    f.byteLength = (f.roots.map Node.length).sum := by
  obtain ⟨sk, tr, h2⟩ := build_ok b env f h
  obtain ⟨result, _, _, hbl, _⟩ := buildRest_ok b sk env tr f h2
  rw [hbl, foldl_add_length]
  omega

/-- Witness for `feed_build_byte_length_is_root_sum`: a concrete
successful reconstruction with root lengths `[10, 20, 5]` and
`byte_length = 35`. -/
theorem feed_build_byte_length_is_root_sum_witness :
    (FeedBuilder.build { publicKey := [7], secretKey := none } c6Env).1 =
      Except.ok c6Feed ∧
    c6Feed.byteLength = (c6Feed.roots.map Node.length).sum :=
  ⟨by decide,
    feed_build_byte_length_is_root_sum
      { publicKey := [7], secretKey := none } c6Env c6Feed (by decide)⟩
